import Mathlib

/-!
Verification of the persistsql package: a generic CRUD persistence layer
over PostgreSQL via the go-pg ORM.  The query builder, the hook mechanism
and the control flow of each operation are embedded from the source
(`persistsql.go`); the behaviour of the external database engine (row
matching, SQL UPDATE application, transaction rollback) is supplied either
as an abstract executor oracle or, where a claim needs it, as a concrete
executor modelled from the spec.
-/

namespace Persistsql

/-- Row visibility with respect to the soft-delete marker, as controlled by
the go-pg query builder: the default excludes soft-deleted rows,
`AllWithDeleted` lifts the filter, `Deleted` restricts to soft-deleted rows. -/
inductive Visibility where
  | notDeleted
  | allRows
  | onlyDeleted
  deriving DecidableEq, Repr

/-- Embedding of the go-pg `orm.Query` builder state reachable from this
package: soft-delete visibility, the accumulated explicit column list
(`Column`), the primary-key scope (`WherePK`) and the returning clause
(`Returning`).  A fresh query from `Model`/`ModelContext` has the default
field values. -/
structure Query where
  visibility : Visibility := .notDeleted
  columns : List String := []
  wherePK : Bool := false
  returningAll : Bool := false
  deriving DecidableEq, Repr

/-- go-pg `query.Column(c)`: add `c` to the explicit column list. -/
def Query.Column (q : Query) (c : String) : Query :=
  { q with columns := q.columns ++ [c] }

/-- go-pg `query.Returning("*")`: request the affected rows back. -/
def Query.Returning (q : Query) : Query :=
  { q with returningAll := true }

/-- go-pg `query.WherePK()`: scope the query to the model primary key. -/
def Query.WherePK (q : Query) : Query :=
  { q with wherePK := true }

/-- go-pg `query.AllWithDeleted()`: lift the soft-delete filter entirely. -/
def Query.AllWithDeleted (q : Query) : Query :=
  { q with visibility := .allRows }

/-- go-pg `query.Deleted()`: restrict to soft-deleted rows only. -/
def Query.Deleted (q : Query) : Query :=
  { q with visibility := .onlyDeleted }

/-- `type QueryHook func(query *orm.Query)`: a caller-supplied mutation of
the in-progress query.  A Go nil hook is modelled as `Option.none` at the
call sites. -/
abbrev QueryHook := Query → Query

/-- `type RawQuery struct { Q string; ErrOk bool }`. -/
structure RawQuery where
  Q : String
  ErrOk : Bool
  deriving DecidableEq, Repr

/-- Errors surfaced by the go-pg driver: `pg.ErrNoRows` versus any other
failure. -/
inductive PgError where
  | noRows
  | other (msg : String)
  deriving DecidableEq, Repr

/-- Outcome of running a Go function that may dereference a nil function
value: either a normal result or the runtime panic caused by calling a nil
`QueryHook`. -/
inductive RunOutcome (α : Type) where
  | ok (val : α)
  | nilHookPanic
  deriving DecidableEq, Repr

/-- `ShowDeleted(query, showDeleted)`: lift the soft-delete filter when
`showDeleted` is true; leave the query untouched otherwise. -/
def ShowDeleted (query : Query) (showDeleted : Bool) : Query :=
  if showDeleted then query.AllWithDeleted else query

/-- Calling a hook unconditionally, as `GetResource` and `UpdateResource`
do (`queryHook(query)` with no nil check): a nil hook is a runtime panic. -/
def callHook (hook : Option QueryHook) (q : Query) : RunOutcome Query :=
  match hook with
  | some h => .ok (h q)
  | none => .nilHookPanic

/-- Calling a hook guarded by a nil check, as `DeleteResource` and
`UndeleteResource` do (`if queryHook != nil { queryHook(query) }`): a nil
hook leaves the query unchanged. -/
def callOptHook (hook : Option QueryHook) (q : Query) : Query :=
  match hook with
  | some h => h q
  | none => q

/-- The query built by `UpdateResource` before the hook runs:
`tx.Model(resource).Returning("*").Column("updated_at")` followed by
`query.Column(col)` for each listed field. -/
def updateQuery (fields : List String) : Query :=
  fields.foldl (fun q c => q.Column c) ((({} : Query).Returning).Column "updated_at")

/-- The query built by `DeleteResource` before the hook runs:
`tx.Model(resource).WherePK().Returning("*")`. -/
def deleteQuery : Query :=
  (({} : Query).WherePK).Returning

/-- The query built by `UndeleteResource` before the hook runs:
`tx.Model(resource).WherePK().Deleted().Column("deleted_at").Returning("*")`. -/
def undeleteQuery : Query :=
  (((({} : Query).WherePK).Deleted).Column "deleted_at").Returning

/-- A persisted row: primary key, the nullable soft-delete marker
(`deleted_at`), and the remaining named columns.  A resource handle passed
to the operations is embedded as the row its struct fields map to. -/
structure Row where
  pk : Nat
  deletedAt : Option Nat
  cols : List (String × Nat)
  deriving DecidableEq, Repr

/-- Look a named column up in a column list. -/
def getCol (cols : List (String × Nat)) (c : String) : Option Nat :=
  (cols.find? (fun p => p.1 == c)).map (fun p => p.2)

/-- `GetResource(ctx, resource, showDeleted, queryHook)`: build a query
with no WHERE clause, apply `ShowDeleted`, invoke the hook unconditionally,
execute a single select (`exec` stands for the external database), map
`pg.ErrNoRows` to `(nil, nil)` and any other failure to `(nil, err)`. -/
def GetResource (showDeleted : Bool) (hook : Option QueryHook)
    (exec : Query → Except PgError Row) : RunOutcome (Option Row × Option PgError) :=
  let query := ShowDeleted ({} : Query) showDeleted
  match callHook hook query with
  | .nilHookPanic => .nilHookPanic
  | .ok q =>
    match exec q with
    | .ok row => .ok (some row, none)
    | .error .noRows => .ok (none, none)
    | .error e => .ok (none, some e)

/-- `UpdateResource(ctx, resource, fields, queryHook)`: inside a
transaction over state `σ`, build `updateQuery fields`, invoke the hook
unconditionally, run the update; `pg.ErrNoRows` yields `(nil, nil)` with
the transaction rolled back, any other error yields `(nil, err)` rolled
back, success commits and returns the resource handle. -/
def UpdateResource {σ : Type} (r : Row) (fields : List String) (hook : Option QueryHook)
    (exec : Query → σ → Except PgError Row × σ) (s : σ) :
    RunOutcome (Option Row × Option PgError × σ) :=
  match callHook hook (updateQuery fields) with
  | .nilHookPanic => .nilHookPanic
  | .ok q =>
    match exec q s with
    | (.ok _, s2) => .ok (some r, none, s2)
    | (.error .noRows, _) => .ok (none, none, s)
    | (.error e, _) => .ok (none, some e, s)

/-- `DeleteResource(ctx, resource, queryHook)`: inside a transaction, build
`deleteQuery`, invoke the hook only when non-nil, run the delete;
`pg.ErrNoRows` yields `(nil, nil)` rolled back, any other error yields
`(nil, err)` rolled back, success commits and returns the handle. -/
def DeleteResource {σ : Type} (r : Row) (hook : Option QueryHook)
    (exec : Query → σ → Except PgError Row × σ) (s : σ) :
    RunOutcome (Option Row × Option PgError × σ) :=
  let q := callOptHook hook deleteQuery
  match exec q s with
  | (.ok _, s2) => .ok (some r, none, s2)
  | (.error .noRows, _) => .ok (none, none, s)
  | (.error e, _) => .ok (none, some e, s)

/-- `UndeleteResource(ctx, resource, queryHook)`: inside a transaction,
build `undeleteQuery`, invoke the hook only when non-nil, run the update;
`pg.ErrNoRows` yields `(nil, nil)` rolled back, any other error yields
`(nil, err)` rolled back, success commits and returns the handle. -/
def UndeleteResource {σ : Type} (r : Row) (hook : Option QueryHook)
    (exec : Query → σ → Except PgError Row × σ) (s : σ) :
    RunOutcome (Option Row × Option PgError × σ) :=
  let q := callOptHook hook undeleteQuery
  match exec q s with
  | (.ok _, s2) => .ok (some r, none, s2)
  | (.error .noRows, _) => .ok (none, none, s)
  | (.error e, _) => .ok (none, some e, s)

/-- `CreateResource(ctx, resource)`: inside a transaction over state `σ`,
run a single insert (`insert` stands for the external database); on
failure the transaction is rolled back and the error returned, on success
it commits and the same resource handle is returned. -/
def CreateResource {σ : Type} (r : Row)
    (insert : σ → Except PgError Unit × σ) (s : σ) :
    Option Row × Option PgError × σ :=
  match insert s with
  | (.ok _, s2) => (some r, none, s2)
  | (.error e, _) => (none, some e, s)

/-- Modelled from the spec: the external effect, in the external database engine, of a
successful single-row INSERT on a table, used to express that
`CreateResource` inserts exactly one row (the engine itself is not part of
this repository). -/
def insertRow (r : Row) (table : List Row) : Except PgError Unit × List Row :=
  (.ok (), table ++ [r])

/-- Schema-level database state for `CreateTables`: the tables that exist
and the raw statements whose execution took effect. -/
structure SchemaDB where
  tables : List String
  applied : List String
  deriving DecidableEq, Repr

/-- The model-creation loop of `CreateTables`: for each model issue
`CreateTable` (its success decided by the external engine via `ctOk`);
the first failure aborts with the error of that model. -/
def runCreateTable (ctOk : String → Bool) : List String → SchemaDB → Except String SchemaDB
  | [], s => .ok s
  | m :: ms, s =>
    if ctOk m then runCreateTable ctOk ms { s with tables := s.tables ++ [m] }
    else .error m

/-- The raw-statement loop of `CreateTables`:
`if _, err := tx.ExecOne(curr.Q); err != nil && !curr.ErrOk { return err }`.
A failing statement with `ErrOk` set is skipped; a failing statement
without it aborts; a succeeding statement takes effect. -/
def runRawQueries (rawOk : String → Bool) : List RawQuery → SchemaDB → Except String SchemaDB
  | [], s => .ok s
  | q :: qs, s =>
    if rawOk q.Q then runRawQueries rawOk qs { s with applied := s.applied ++ [q.Q] }
    else if q.ErrOk then runRawQueries rawOk qs s
    else .error q.Q

/-- `CreateTables(ctx, models, rawQueries)`: run the model creations then
the raw statements inside one transaction; any propagated error rolls the
whole call back to the initial state. -/
def CreateTables (s : SchemaDB) (models : List String) (raws : List RawQuery)
    (ctOk rawOk : String → Bool) : SchemaDB × Option String :=
  match (runCreateTable ctOk models s).bind (runRawQueries rawOk raws) with
  | .ok s2 => (s2, none)
  | .error e => (s, some e)

/-- Modelled from the spec: whether a row is visible under a soft-delete
visibility mode of the external ORM (default mode excludes rows whose
delete marker is set; `AllWithDeleted` admits all; `Deleted` admits only
marked rows). -/
def visibleRow (v : Visibility) (deletedAt : Option Nat) : Bool :=
  match v with
  | .notDeleted => deletedAt.isNone
  | .allRows => true
  | .onlyDeleted => deletedAt.isSome

/-- Modelled from the spec: whether a row matches a query of the external
engine, combining the primary-key scope with the visibility filter. -/
def rowMatches (q : Query) (src : Row) (row : Row) : Bool :=
  (if q.wherePK then row.pk == src.pk else true) && visibleRow q.visibility row.deletedAt

/-- Modelled from the spec: the effect, in the external engine, of an UPDATE on
one named column entry — a column in the explicit column set of the query takes
the value from the source model, any other column is untouched. -/
def updateColEntry (q : Query) (src : Row) (p : String × Nat) : String × Nat :=
  if q.columns.contains p.1 then
    match getCol src.cols p.1 with
    | some v => (p.1, v)
    | none => p
  else p

/-- Modelled from the spec: the application, by the external engine, of an UPDATE
to one row — every column in the explicit column set of the query takes the
value from the source model, every other column is untouched. -/
def applyUpdateRow (q : Query) (src : Row) (row : Row) : Row :=
  { pk := row.pk
    deletedAt := if q.columns.contains "deleted_at" then src.deletedAt else row.deletedAt
    cols := row.cols.map (updateColEntry q src) }

/-- Modelled from the spec: the external engine executing an UPDATE with a
returning clause over a table — zero matching rows surfaces as the no-rows
signal, otherwise every matching row is updated and the first one is
returned. -/
def execUpdateTable (src : Row) (q : Query) (table : List Row) :
    Except PgError Row × List Row :=
  match table.filter (fun row => rowMatches q src row) with
  | [] => (.error .noRows, table)
  | r0 :: _ =>
    (.ok (applyUpdateRow q src r0),
     table.map (fun row => if rowMatches q src row then applyUpdateRow q src row else row))

/-! ### Helper lemmas -/

theorem getCol_cons (p : String × Nat) (rest : List (String × Nat)) (c : String) :
    getCol (p :: rest) c = if p.1 == c then some p.2 else getCol rest c := by
  by_cases hpc : p.1 == c <;> simp [getCol, List.find?, hpc]

theorem updateColEntry_fst (q : Query) (src : Row) (p : String × Nat) :
    (updateColEntry q src p).1 = p.1 := by
  unfold updateColEntry
  by_cases hc : q.columns.contains p.1 = true
  · rw [if_pos hc]
    cases getCol src.cols p.1 <;> rfl
  · rw [if_neg hc]

theorem updateColEntry_noop (q : Query) (src : Row) (p : String × Nat)
    (hc : q.columns.contains p.1 = false) : updateColEntry q src p = p := by
  unfold updateColEntry
  rw [if_neg (by rw [hc]; exact Bool.false_ne_true)]

theorem getCol_map_frame (q : Query) (src : Row) (c : String)
    (hc : q.columns.contains c = false) :
    ∀ cols : List (String × Nat),
      getCol (cols.map (updateColEntry q src)) c = getCol cols c := by
  intro cols
  induction cols with
  | nil => simp [getCol]
  | cons p rest ih =>
    rw [List.map_cons, getCol_cons, getCol_cons, updateColEntry_fst]
    by_cases hpc : (p.1 == c) = true
    · have hp1 : p.1 = c := by simpa using hpc
      have hcp : q.columns.contains p.1 = false := by rw [hp1]; exact hc
      rw [if_pos hpc, if_pos hpc, updateColEntry_noop q src p hcp]
    · rw [if_neg hpc, if_neg hpc, ih]

theorem foldl_Column_columns (fields : List String) :
    ∀ q : Query, (fields.foldl (fun q c => q.Column c) q).columns = q.columns ++ fields := by
  induction fields with
  | nil => intro q; simp
  | cons f fs ih =>
    intro q
    rw [List.foldl_cons, ih]
    simp [Query.Column]

theorem foldl_Column_frame (fields : List String) :
    ∀ q : Query,
      (fields.foldl (fun q c => q.Column c) q).visibility = q.visibility ∧
      (fields.foldl (fun q c => q.Column c) q).wherePK = q.wherePK ∧
      (fields.foldl (fun q c => q.Column c) q).returningAll = q.returningAll := by
  induction fields with
  | nil => intro q; exact ⟨rfl, rfl, rfl⟩
  | cons f fs ih =>
    intro q
    rw [List.foldl_cons]
    exact ih (q.Column f)

theorem updateQuery_columns (fields : List String) :
    (updateQuery fields).columns = "updated_at" :: fields := by
  unfold updateQuery
  rw [foldl_Column_columns]
  rfl

theorem runCreateTable_ok (ctOk : String → Bool) :
    ∀ (ms : List String) (s : SchemaDB), (∀ m ∈ ms, ctOk m = true) →
      runCreateTable ctOk ms s = .ok { s with tables := s.tables ++ ms } := by
  intro ms
  induction ms with
  | nil => intro s _; simp [runCreateTable]
  | cons m rest ih =>
    intro s hall
    have hm : ctOk m = true := hall m (List.mem_cons_self m rest)
    rw [runCreateTable, if_pos hm, ih _ (fun x hx => hall x (List.mem_cons_of_mem m hx))]
    simp

theorem runCreateTable_err (ctOk : String → Bool) :
    ∀ (ms : List String) (s : SchemaDB), (∃ m ∈ ms, ctOk m = false) →
      ∃ e, runCreateTable ctOk ms s = .error e := by
  intro ms
  induction ms with
  | nil => intro s h; simp at h
  | cons m rest ih =>
    intro s h
    by_cases hm : ctOk m = true
    · rw [runCreateTable, if_pos hm]
      apply ih
      rcases h with ⟨x, hx, hxf⟩
      rcases List.mem_cons.mp hx with h1 | h1
      · rw [h1] at hxf; rw [hxf] at hm; exact absurd hm (by simp)
      · exact ⟨x, h1, hxf⟩
    · exact ⟨m, by rw [runCreateTable, if_neg hm]⟩

theorem runRawQueries_ok (rawOk : String → Bool) :
    ∀ (qs : List RawQuery) (s : SchemaDB),
      (∀ q ∈ qs, rawOk q.Q = false → q.ErrOk = true) →
      runRawQueries rawOk qs s =
        .ok { s with applied := s.applied ++ (qs.filter (fun q => rawOk q.Q)).map (fun q => q.Q) } := by
  intro qs
  induction qs with
  | nil => intro s _; simp [runRawQueries]
  | cons q rest ih =>
    intro s hall
    have hrest : ∀ x ∈ rest, rawOk x.Q = false → x.ErrOk = true :=
      fun x hx => hall x (List.mem_cons_of_mem q hx)
    by_cases hq : rawOk q.Q = true
    · rw [runRawQueries, if_pos hq, ih _ hrest]
      simp [List.filter_cons, hq]
    · have hq0 : rawOk q.Q = false := by simpa using hq
      have hok : q.ErrOk = true := hall q (List.mem_cons_self q rest) hq0
      rw [runRawQueries, if_neg hq, if_pos hok, ih _ hrest]
      simp [List.filter_cons, hq0]

theorem runRawQueries_err (rawOk : String → Bool) :
    ∀ (qs : List RawQuery) (s : SchemaDB),
      (∃ q ∈ qs, rawOk q.Q = false ∧ q.ErrOk = false) →
      ∃ e, runRawQueries rawOk qs s = .error e := by
  intro qs
  induction qs with
  | nil => intro s h; simp at h
  | cons q rest ih =>
    intro s h
    by_cases hq : rawOk q.Q = true
    · rw [runRawQueries, if_pos hq]
      apply ih
      rcases h with ⟨x, hx, hxf, hxe⟩
      rcases List.mem_cons.mp hx with h1 | h1
      · rw [h1] at hxf; rw [hxf] at hq; exact absurd hq (by simp)
      · exact ⟨x, h1, hxf, hxe⟩
    · by_cases hok : q.ErrOk = true
      · rw [runRawQueries, if_neg hq, if_pos hok]
        apply ih
        rcases h with ⟨x, hx, hxf, hxe⟩
        rcases List.mem_cons.mp hx with h1 | h1
        · rw [h1] at hxe; rw [hxe] at hok; exact absurd hok (by simp)
        · exact ⟨x, h1, hxf, hxe⟩
      · exact ⟨q.Q, by rw [runRawQueries, if_neg hq, if_neg hok]⟩

/-! ### Concrete fixtures used by witnesses -/

/-- A sample persisted row used as a concrete input in witnesses. -/
def sampleRow : Row :=
  { pk := 1, deletedAt := none, cols := [("name", 5), ("created_at", 3), ("updated_at", 4)] }

/-- A stateful executor that always reports the no-rows outcome. -/
def noRowsExec {σ : Type} : Query → σ → Except PgError Row × σ :=
  fun _ s => (.error .noRows, s)

/-- A select executor that always reports the no-rows outcome. -/
def noRowsSelect : Query → Except PgError Row :=
  fun _ => .error .noRows

/-- A select executor that always fails with a connectivity error. -/
def failSelect : Query → Except PgError Row :=
  fun _ => .error (.other "conn")

/-! ### Claims -/

/-- C1: for every call to GetResource, UpdateResource, DeleteResource or
UndeleteResource whose underlying query matches zero rows (the executor
reports the no-rows outcome), the operation returns a nil resource and a
nil error, with no failure signal; any other failure of the underlying
query is returned as an error. -/
theorem c1_zero_rows_not_an_error {σ : Type}
    (r : Row) (showDeleted : Bool) (h : QueryHook) (fields : List String)
    (hook : Option QueryHook) (execG : Query → Except PgError Row)
    (execU execD execUn : Query → σ → Except PgError Row × σ) (s : σ) (msg : String) :
    (execG (h (ShowDeleted {} showDeleted)) = .error .noRows →
      GetResource showDeleted (some h) execG = .ok (none, none))
    ∧ (execG (h (ShowDeleted {} showDeleted)) = .error (.other msg) →
      GetResource showDeleted (some h) execG = .ok (none, some (.other msg)))
    ∧ (∀ s2, execU (h (updateQuery fields)) s = (.error .noRows, s2) →
      UpdateResource r fields (some h) execU s = .ok (none, none, s))
    ∧ (∀ s2, execU (h (updateQuery fields)) s = (.error (.other msg), s2) →
      UpdateResource r fields (some h) execU s = .ok (none, some (.other msg), s))
    ∧ (∀ s2, execD (callOptHook hook deleteQuery) s = (.error .noRows, s2) →
      DeleteResource r hook execD s = .ok (none, none, s))
    ∧ (∀ s2, execD (callOptHook hook deleteQuery) s = (.error (.other msg), s2) →
      DeleteResource r hook execD s = .ok (none, some (.other msg), s))
    ∧ (∀ s2, execUn (callOptHook hook undeleteQuery) s = (.error .noRows, s2) →
      UndeleteResource r hook execUn s = .ok (none, none, s))
    ∧ (∀ s2, execUn (callOptHook hook undeleteQuery) s = (.error (.other msg), s2) →
      UndeleteResource r hook execUn s = .ok (none, some (.other msg), s)) := by
  refine ⟨?_, ?_, ?_, ?_, ?_, ?_, ?_, ?_⟩
  · intro hx; simp [GetResource, callHook, hx]
  · intro hx; simp [GetResource, callHook, hx]
  · intro s2 hx; simp [UpdateResource, callHook, hx]
  · intro s2 hx; simp [UpdateResource, callHook, hx]
  · intro s2 hx; simp [DeleteResource, hx]
  · intro s2 hx; simp [DeleteResource, hx]
  · intro s2 hx; simp [UndeleteResource, hx]
  · intro s2 hx; simp [UndeleteResource, hx]

/-- Witness for C1 at concrete inputs: a no-rows select gives `(nil, nil)`
from GetResource, a connectivity failure is returned as an error, and a
no-rows update, delete and undelete each give `(nil, nil)`. -/
theorem c1_zero_rows_not_an_error_witness :
    GetResource false (some id) noRowsSelect = .ok (none, none)
    ∧ GetResource false (some id) failSelect = .ok (none, some (.other "conn"))
    ∧ UpdateResource (σ := Nat) sampleRow ["name"] (some id) noRowsExec 0 = .ok (none, none, 0)
    ∧ DeleteResource (σ := Nat) sampleRow none noRowsExec 0 = .ok (none, none, 0)
    ∧ UndeleteResource (σ := Nat) sampleRow none noRowsExec 0 = .ok (none, none, 0) :=
  ⟨(c1_zero_rows_not_an_error (σ := Nat) sampleRow false id ["name"] none
      noRowsSelect noRowsExec noRowsExec noRowsExec 0 "conn").1 rfl,
   (c1_zero_rows_not_an_error (σ := Nat) sampleRow false id ["name"] none
      failSelect noRowsExec noRowsExec noRowsExec 0 "conn").2.1 rfl,
   (c1_zero_rows_not_an_error (σ := Nat) sampleRow false id ["name"] none
      noRowsSelect noRowsExec noRowsExec noRowsExec 0 "conn").2.2.1 0 rfl,
   (c1_zero_rows_not_an_error (σ := Nat) sampleRow false id ["name"] none
      noRowsSelect noRowsExec noRowsExec noRowsExec 0 "conn").2.2.2.2.1 0 rfl,
   (c1_zero_rows_not_an_error (σ := Nat) sampleRow false id ["name"] none
      noRowsSelect noRowsExec noRowsExec noRowsExec 0 "conn").2.2.2.2.2.2.1 0 rfl⟩

/-- C2 counterexample: UpdateResource invoked with a nil hook does not
proceed as a no-op — it calls the hook unconditionally and hits the
nil-function panic, refuting that all three of DeleteResource,
UpdateResource and UndeleteResource tolerate an absent hook. -/
theorem c2_nil_hook_counterexample :
    UpdateResource (σ := Nat) sampleRow ["name"] none noRowsExec 0 = .nilHookPanic := rfl

/-- C2 (amended): GetResource and UpdateResource invoke the
caller-supplied hook unconditionally, so a nil hook in either of those
paths is a caller error (runtime panic); DeleteResource and
UndeleteResource tolerate a nil hook, proceeding exactly as with the
identity hook. -/
theorem c2_amended_nil_hook_tolerance {σ : Type} (r : Row) (showDeleted : Bool)
    (fields : List String) (execG : Query → Except PgError Row)
    (exec : Query → σ → Except PgError Row × σ) (s : σ) :
    GetResource showDeleted none execG = .nilHookPanic
    ∧ UpdateResource r fields none exec s = .nilHookPanic
    ∧ DeleteResource r none exec s = DeleteResource r (some id) exec s
    ∧ UndeleteResource r none exec s = UndeleteResource r (some id) exec s :=
  ⟨rfl, rfl, rfl, rfl⟩

/-- C3: in GetResource, when showDeleted is false ShowDeleted leaves the
query untouched and the default visibility (excluding soft-deleted rows)
applies; when showDeleted is true the filter is lifted entirely so both
deleted and active rows are visible; and the hook is applied after the
visibility is set, the executor running on the output of the hook. -/
theorem c3_show_deleted_visibility (q : Query) (showDeleted : Bool) (h : QueryHook)
    (execG : Query → Except PgError Row) (dt : Nat) (dts : Option Nat) :
    ShowDeleted q false = q
    ∧ (ShowDeleted ({} : Query) false).visibility = .notDeleted
    ∧ visibleRow (ShowDeleted ({} : Query) false).visibility (some dt) = false
    ∧ visibleRow (ShowDeleted ({} : Query) false).visibility none = true
    ∧ (ShowDeleted ({} : Query) true).visibility = .allRows
    ∧ visibleRow (ShowDeleted ({} : Query) true).visibility dts = true
    ∧ GetResource showDeleted (some h) execG =
        (match execG (h (ShowDeleted ({} : Query) showDeleted)) with
         | .ok row => .ok (some row, none)
         | .error .noRows => .ok (none, none)
         | .error e => .ok (none, some e)) := by
  refine ⟨rfl, rfl, rfl, rfl, rfl, ?_, ?_⟩
  · cases dts <;> rfl
  · rcases hx : execG (h (ShowDeleted ({} : Query) showDeleted)) with row | e
    · simp [GetResource, callHook, hx]
    · rcases e with _ | msg <;> simp [GetResource, callHook, hx]

/-- C9: DeleteResource builds its delete query pre-scoped to the primary key of the model and requesting the deleted row back, and a non-nil hook is
applied to exactly that query before the delete executes. -/
theorem c9_delete_query_shape {σ : Type} (r : Row) (h : QueryHook)
    (exec : Query → σ → Except PgError Row × σ) (s : σ) :
    deleteQuery.wherePK = true
    ∧ deleteQuery.returningAll = true
    ∧ callOptHook (some h) deleteQuery = h deleteQuery
    ∧ DeleteResource r (some h) exec s =
        (match exec (h deleteQuery) s with
         | (.ok _, s2) => .ok (some r, none, s2)
         | (.error .noRows, _) => .ok (none, none, s)
         | (.error e, _) => .ok (none, some e, s)) := by
  refine ⟨rfl, rfl, rfl, ?_⟩
  rcases hx : exec (h deleteQuery) s with ⟨res, s2⟩
  rcases res with row | e
  · simp [DeleteResource, callOptHook, hx]
  · rcases e with _ | msg <;> simp [DeleteResource, callOptHook, hx]

theorem map_updateColEntry_noop (q : Query) (src : Row) :
    ∀ cols : List (String × Nat), (∀ p ∈ cols, q.columns.contains p.1 = false) →
      cols.map (updateColEntry q src) = cols := by
  intro cols
  induction cols with
  | nil => intro _; rfl
  | cons p rest ih =>
    intro hall
    rw [List.map_cons, updateColEntry_noop q src p (hall p (List.mem_cons_self p rest)),
      ih (fun x hx => hall x (List.mem_cons_of_mem p hx))]

theorem undeleteQuery_eq :
    undeleteQuery = { visibility := .onlyDeleted, columns := ["deleted_at"],
                      wherePK := true, returningAll := true } := rfl

/-- C4: UpdateResource builds its update query with column set exactly the
listed fields plus updated_at, the hook is applied to that query and the
update executes on the output of the hook, and applying the update to a matched
row leaves every column outside that set (including the delete marker and
the primary key) unchanged. -/
theorem c4_update_columns_and_frame {σ : Type} (r src row : Row) (fields : List String)
    (h : QueryHook) (exec : Query → σ → Except PgError Row × σ) (s : σ) (c : String) :
    (updateQuery fields).columns = "updated_at" :: fields
    ∧ UpdateResource r fields (some h) exec s =
        (match exec (h (updateQuery fields)) s with
         | (.ok _, s2) => .ok (some r, none, s2)
         | (.error .noRows, _) => .ok (none, none, s)
         | (.error e, _) => .ok (none, some e, s))
    ∧ (("updated_at" :: fields).contains c = false →
        getCol (applyUpdateRow (updateQuery fields) src row).cols c = getCol row.cols c)
    ∧ (("updated_at" :: fields).contains "deleted_at" = false →
        (applyUpdateRow (updateQuery fields) src row).deletedAt = row.deletedAt)
    ∧ (applyUpdateRow (updateQuery fields) src row).pk = row.pk := by
  refine ⟨updateQuery_columns fields, ?_, ?_, ?_, rfl⟩
  · rcases hx : exec (h (updateQuery fields)) s with ⟨resx, s2⟩
    rcases resx with row2 | e
    · simp [UpdateResource, callHook, hx]
    · rcases e with _ | msg <;> simp [UpdateResource, callHook, hx]
  · intro hc
    have hc2 : (updateQuery fields).columns.contains c = false := by
      rw [updateQuery_columns]; exact hc
    simp only [applyUpdateRow]
    exact getCol_map_frame _ _ _ hc2 row.cols
  · intro hc
    have hc2 : (updateQuery fields).columns.contains "deleted_at" = false := by
      rw [updateQuery_columns]; exact hc
    simp only [applyUpdateRow]
    rw [if_neg (by rw [hc2]; exact Bool.false_ne_true)]

/-- Witness for C4 at concrete inputs: updating only the name column keeps
created_at, the delete marker and the primary key untouched. -/
theorem c4_update_columns_and_frame_witness :
    (updateQuery ["name"]).columns = ["updated_at", "name"]
    ∧ getCol (applyUpdateRow (updateQuery ["name"]) sampleRow sampleRow).cols "created_at" =
        getCol sampleRow.cols "created_at"
    ∧ (applyUpdateRow (updateQuery ["name"]) sampleRow sampleRow).deletedAt =
        sampleRow.deletedAt :=
  ⟨(c4_update_columns_and_frame (σ := Nat) sampleRow sampleRow sampleRow ["name"]
      id noRowsExec 0 "created_at").1,
   (c4_update_columns_and_frame (σ := Nat) sampleRow sampleRow sampleRow ["name"]
      id noRowsExec 0 "created_at").2.2.1 (by decide),
   (c4_update_columns_and_frame (σ := Nat) sampleRow sampleRow sampleRow ["name"]
      id noRowsExec 0 "created_at").2.2.2.1 (by decide)⟩

/-- C5: UndeleteResource builds an update pre-scoped to the primary key,
restricted to rows currently soft-deleted, whose column set is only the
delete marker, so applying it clears DeleteTime and nothing else; and over
a table whose rows are not currently soft-deleted the update matches zero
rows, returning `(nil, nil)` and leaving the table unmutated. -/
theorem c5_undelete_clears_delete_marker (r src row : Row) (table : List Row) :
    undeleteQuery.wherePK = true
    ∧ undeleteQuery.visibility = .onlyDeleted
    ∧ undeleteQuery.columns = ["deleted_at"]
    ∧ (src.deletedAt = none → (∀ p ∈ row.cols, p.1 ≠ "deleted_at") →
        applyUpdateRow undeleteQuery src row =
          { pk := row.pk, deletedAt := none, cols := row.cols })
    ∧ ((∀ x ∈ table, x.deletedAt = none) →
        UndeleteResource r none (execUpdateTable src) table = .ok (none, none, table)) := by
  refine ⟨rfl, rfl, rfl, ?_, ?_⟩
  · intro hsrc hcols
    have hmap : row.cols.map (updateColEntry undeleteQuery src) = row.cols := by
      apply map_updateColEntry_noop
      intro p hp
      have hne : p.1 ≠ "deleted_at" := hcols p hp
      rw [undeleteQuery_eq]
      simp [hne]
    unfold applyUpdateRow
    rw [if_pos (by decide : undeleteQuery.columns.contains "deleted_at" = true), hsrc, hmap]
  · intro hall
    have hfilter : table.filter (fun x => rowMatches undeleteQuery src x) = [] := by
      rw [List.filter_eq_nil_iff]
      intro x hx
      have hd := hall x hx
      simp [rowMatches, undeleteQuery_eq, visibleRow, hd]
    simp [UndeleteResource, callOptHook, execUpdateTable, hfilter]

/-- Witness for C5 at concrete inputs: undeleting over a single active row
matches nothing, giving `(nil, nil)` with the table unchanged, and the
update application clears only the delete marker. -/
theorem c5_undelete_clears_delete_marker_witness :
    applyUpdateRow undeleteQuery sampleRow sampleRow =
      { pk := sampleRow.pk, deletedAt := none, cols := sampleRow.cols }
    ∧ UndeleteResource sampleRow none (execUpdateTable sampleRow) [sampleRow] =
        .ok (none, none, [sampleRow]) :=
  ⟨(c5_undelete_clears_delete_marker sampleRow sampleRow sampleRow [sampleRow]).2.2.2.1
      rfl (by decide),
   (c5_undelete_clears_delete_marker sampleRow sampleRow sampleRow [sampleRow]).2.2.2.2
      (by simp [sampleRow])⟩

/-- C6: CreateTables runs every table creation and raw statement in one
atomic transaction — an error leaves the schema state exactly as before
the call — and it returns an error precisely when some table creation
fails or some raw statement not marked error-tolerant fails. -/
theorem c6_create_tables_atomic (s : SchemaDB) (models : List String)
    (raws : List RawQuery) (ctOk rawOk : String → Bool) :
    ((CreateTables s models raws ctOk rawOk).2.isSome →
      (CreateTables s models raws ctOk rawOk).1 = s)
    ∧ ((CreateTables s models raws ctOk rawOk).2.isSome ↔
      (∃ m ∈ models, ctOk m = false) ∨
      ((∀ m ∈ models, ctOk m = true) ∧ ∃ q ∈ raws, rawOk q.Q = false ∧ q.ErrOk = false)) := by
  constructor
  · intro hsome
    unfold CreateTables at hsome ⊢
    rcases hb : (runCreateTable ctOk models s).bind (runRawQueries rawOk raws) with e | s2
    · rfl
    · rw [hb] at hsome; simp at hsome
  · constructor
    · intro hsome
      by_cases hm : ∀ m ∈ models, ctOk m = true
      · right
        refine ⟨hm, ?_⟩
        by_cases hq : ∀ q ∈ raws, rawOk q.Q = false → q.ErrOk = true
        · exfalso
          have h1 := runCreateTable_ok ctOk models s hm
          have h2 := runRawQueries_ok rawOk raws { s with tables := s.tables ++ models } hq
          unfold CreateTables at hsome
          rw [h1] at hsome
          simp [Except.bind, h2] at hsome
        · push_neg at hq
          rcases hq with ⟨q, hq1, hq2, hq3⟩
          exact ⟨q, hq1, hq2, by simpa using hq3⟩
      · left
        push_neg at hm
        rcases hm with ⟨m, hm1, hm2⟩
        exact ⟨m, hm1, by simpa using hm2⟩
    · intro hfail
      rcases hfail with ⟨m, hm1, hm2⟩ | ⟨hm, q, hq1, hq2, hq3⟩
      · rcases runCreateTable_err ctOk models s ⟨m, hm1, hm2⟩ with ⟨e, he⟩
        unfold CreateTables
        rw [he]
        simp [Except.bind]
      · have h1 := runCreateTable_ok ctOk models s hm
        rcases runRawQueries_err rawOk raws { s with tables := s.tables ++ models }
          ⟨q, hq1, hq2, hq3⟩ with ⟨e, he⟩
        unfold CreateTables
        rw [h1]
        simp [Except.bind, he]

/-- Witness for C6 at concrete inputs: a failing table creation yields an
error and leaves the schema state untouched. -/
theorem c6_create_tables_atomic_witness :
    (CreateTables ⟨[], []⟩ ["users"] [] (fun _ => false) (fun _ => true)).1 = ⟨[], []⟩
    ∧ (CreateTables ⟨[], []⟩ ["users"] [] (fun _ => false) (fun _ => true)).2.isSome :=
  ⟨(c6_create_tables_atomic ⟨[], []⟩ ["users"] [] (fun _ => false) (fun _ => true)).1 rfl,
   (c6_create_tables_atomic ⟨[], []⟩ ["users"] [] (fun _ => false) (fun _ => true)).2.mpr
      (Or.inl ⟨"users", List.mem_singleton.mpr rfl, rfl⟩)⟩

/-- C7: a CreateTables call containing a failing raw statement whose
error-tolerance flag is set completes successfully, with every table
creation and every succeeding raw statement of the same call applied. -/
theorem c7_err_ok_failure_tolerated (s : SchemaDB) (models : List String)
    (raws : List RawQuery) (ctOk rawOk : String → Bool)
    (_hfail : ∃ q ∈ raws, rawOk q.Q = false ∧ q.ErrOk = true)
    (hm : ∀ m ∈ models, ctOk m = true)
    (hq : ∀ q ∈ raws, rawOk q.Q = false → q.ErrOk = true) :
    CreateTables s models raws ctOk rawOk =
      ({ tables := s.tables ++ models,
         applied := s.applied ++ (raws.filter (fun q => rawOk q.Q)).map (fun q => q.Q) },
       none) := by
  have h1 := runCreateTable_ok ctOk models s hm
  have h2 := runRawQueries_ok rawOk raws { s with tables := s.tables ++ models } hq
  unfold CreateTables
  rw [h1]
  simp [Except.bind, h2]

/-- Witness for C7 at concrete inputs: a failing tolerated statement is
skipped while the table and the succeeding statement are applied. -/
theorem c7_err_ok_failure_tolerated_witness :
    CreateTables ⟨[], []⟩ ["users"] [⟨"bad", true⟩, ⟨"good", false⟩]
        (fun _ => true) (fun x => x == "good") =
      (⟨["users"], ["good"]⟩, none) :=
  c7_err_ok_failure_tolerated ⟨[], []⟩ ["users"] [⟨"bad", true⟩, ⟨"good", false⟩]
    (fun _ => true) (fun x => x == "good")
    ⟨⟨"bad", true⟩, by decide, by decide, rfl⟩ (by decide) (by decide)

/-- C8: CreateResource inserts exactly one row inside its own transaction
and returns the same resource handle on success; on an insert failure the
transaction is rolled back and the error is returned. -/
theorem c8_create_resource_single_insert {σ : Type} (r : Row) (table : List Row)
    (insert : σ → Except PgError Unit × σ) (s : σ) (e : PgError) :
    CreateResource r (insertRow r) table = (some r, none, table ++ [r])
    ∧ (∀ s2, insert s = (.error e, s2) → CreateResource r insert s = (none, some e, s)) := by
  constructor
  · rfl
  · intro s2 hx; simp [CreateResource, hx]

/-- Witness for C8 at concrete inputs: a failing insert rolls back and
returns the error with a nil resource. -/
theorem c8_create_resource_single_insert_witness :
    CreateResource (σ := Nat) sampleRow (fun s => (.error (.other "dup"), s)) 0 =
      (none, some (.other "dup"), 0) :=
  (c8_create_resource_single_insert (σ := Nat) sampleRow []
      (fun s => (.error (.other "dup"), s)) 0 (.other "dup")).2 0 rfl

/-- C10: whenever CreateResource, GetResource, UpdateResource,
DeleteResource or UndeleteResource returns a non-nil error, the returned
resource is nil. -/
theorem c10_error_implies_nil_resource {σ : Type} (r : Row) (showDeleted : Bool)
    (fields : List String) (hook : Option QueryHook)
    (execG : Query → Except PgError Row)
    (execU execD execUn : Query → σ → Except PgError Row × σ)
    (insert : σ → Except PgError Unit × σ) (s : σ) :
    (∀ res err, GetResource showDeleted hook execG = .ok (res, err) →
      err.isSome → res = none)
    ∧ (∀ res err s2, UpdateResource r fields hook execU s = .ok (res, err, s2) →
      err.isSome → res = none)
    ∧ (∀ res err s2, DeleteResource r hook execD s = .ok (res, err, s2) →
      err.isSome → res = none)
    ∧ (∀ res err s2, UndeleteResource r hook execUn s = .ok (res, err, s2) →
      err.isSome → res = none)
    ∧ (∀ res err s2, CreateResource r insert s = (res, err, s2) →
      err.isSome → res = none) := by
  refine ⟨?_, ?_, ?_, ?_, ?_⟩
  · intro res err hEq hS
    rcases hook with _ | h
    · simp [GetResource, callHook] at hEq
    · rcases hx : execG (h (ShowDeleted {} showDeleted)) with e | row
      · rcases e with _ | msg <;> simp [GetResource, callHook, hx] at hEq <;>
          exact hEq.1.symm
      · simp [GetResource, callHook, hx] at hEq
        rw [← hEq.2] at hS
        simp at hS
  · intro res err s2 hEq hS
    rcases hook with _ | h
    · simp [UpdateResource, callHook] at hEq
    · rcases hx : execU (h (updateQuery fields)) s with ⟨resx, sx⟩
      rcases resx with e | row
      · rcases e with _ | msg <;> simp [UpdateResource, callHook, hx] at hEq <;>
          exact hEq.1.symm
      · simp [UpdateResource, callHook, hx] at hEq
        rw [← hEq.2.1] at hS
        simp at hS
  · intro res err s2 hEq hS
    rcases hx : execD (callOptHook hook deleteQuery) s with ⟨resx, sx⟩
    rcases resx with e | row
    · rcases e with _ | msg <;> simp [DeleteResource, hx] at hEq <;> exact hEq.1.symm
    · simp [DeleteResource, hx] at hEq
      rw [← hEq.2.1] at hS
      simp at hS
  · intro res err s2 hEq hS
    rcases hx : execUn (callOptHook hook undeleteQuery) s with ⟨resx, sx⟩
    rcases resx with e | row
    · rcases e with _ | msg <;> simp [UndeleteResource, hx] at hEq <;> exact hEq.1.symm
    · simp [UndeleteResource, hx] at hEq
      rw [← hEq.2.1] at hS
      simp at hS
  · intro res err s2 hEq hS
    rcases hx : insert s with ⟨resx, sx⟩
    rcases resx with e | u
    · simp [CreateResource, hx] at hEq
      exact hEq.1.symm
    · simp [CreateResource, hx] at hEq
      rw [← hEq.2.1] at hS
      simp at hS

/-- Witness for C10 at concrete inputs: a failing select returns an error
together with a nil resource. -/
theorem c10_error_implies_nil_resource_witness :
    GetResource false (some id) failSelect = .ok (none, some (.other "conn"))
    ∧ (none : Option Row) = none :=
  ⟨rfl,
   (c10_error_implies_nil_resource (σ := Nat) sampleRow false ["name"] (some id)
      failSelect noRowsExec noRowsExec noRowsExec (fun s => (.ok (), s)) 0).1
      none (some (.other "conn")) rfl rfl⟩

end Persistsql
